import Mathlib

/-
Verification of the fundamentum inter-service communication toolkit.

Shallow embedding of:
  src/fundamentum/infra/observability/context.py
  src/fundamentum/infra/observability/middleware.py
  src/fundamentum/infra/http/client.py
  src/fundamentum/infra/http/registry.py
  src/fundamentum/infra/settings/registry.py

Conventions of the embedding:
  - Python strings are Lean `String`; where character-level substitution
    matters (URL path templates) we work on `List Char`.
  - The cryptographically random generator `secrets.choice` is modelled by
    an oracle `r : Fin 5 → Fin 36` selecting indices into the alphabet.
  - Python exceptions become `Except` results; mutation of registries
    becomes explicit state passing.
  - Structured-log emission (the helper functions in
    fundamentum/infra/observability/helpers.py, which only format and call
    the standard logger) is modelled as an explicit trace of emitted
    events/actions, in the order the source emits them.
-/

namespace Fundamentum

/-! ## Trace context (observability/context.py) -/

/-- Alphabet `string.ascii_uppercase + string.digits` from context.py. -/
def TRACE_CHARS : List Char :=
  "ABCDEFGHIJKLMNOPQRSTUVWXYZ0123456789".toList

theorem TRACE_CHARS_length : TRACE_CHARS.length = 36 := rfl

/-- Embedding of `generate_trace_segment`: five independent draws from
`TRACE_CHARS`, the random source modelled by the oracle `r`. -/
def generate_trace_segment (r : Fin 5 → Fin 36) : String :=
  String.mk ((List.finRange 5).map fun i =>
    TRACE_CHARS.get (Fin.cast TRACE_CHARS_length.symm (r i)))

/-- Embedding of `append_trace_segment`: Python's `if not trace_id` is
true for both `None` and the empty string. -/
def append_trace_segment (r : Fin 5 → Fin 36)
    (trace_id : Option String) (segment : Option String) : String :=
  let seg := match segment with
    | none => generate_trace_segment r
    | some s => s
  match trace_id with
  | none => seg
  | some t => if t = "" then seg else t ++ "." ++ seg

/-- Embedding of `increment_trace_id` (a direct delegation). -/
def increment_trace_id (r : Fin 5 → Fin 36)
    (incoming_trace_id : Option String) (segment : Option String) : String :=
  append_trace_segment r incoming_trace_id segment

theorem generate_trace_segment_length (r : Fin 5 → Fin 36) :
    (generate_trace_segment r).length = 5 := by
  simp [generate_trace_segment, String.length]

theorem generate_trace_segment_chars (r : Fin 5 → Fin 36) :
    ∀ c ∈ (generate_trace_segment r).data, c ∈ TRACE_CHARS := by
  intro c hc
  simp [generate_trace_segment] at hc
  obtain ⟨i, hi⟩ := hc
  exact hi ▸ List.getElem_mem _

/-- C1: `append_trace_segment` returns just the (possibly generated)
segment when the existing identifier is `None` or empty, and otherwise the
existing identifier followed by `'.'` and the segment; the function is
pure (inputs are never mutated), and when the segment argument is `None`
the appended token is a freshly generated 5-character string drawn
entirely from the alphabet A-Z0-9. -/
theorem append_trace_segment_spec (r : Fin 5 → Fin 36) (segment : Option String) :
    (append_trace_segment r none segment
        = segment.getD (generate_trace_segment r))
    ∧ (append_trace_segment r (some "") segment
        = segment.getD (generate_trace_segment r))
    ∧ (∀ t : String, t ≠ "" →
        append_trace_segment r (some t) segment
          = t ++ "." ++ segment.getD (generate_trace_segment r))
    ∧ (segment = none →
        (generate_trace_segment r).length = 5
        ∧ ∀ c ∈ (generate_trace_segment r).data, c ∈ TRACE_CHARS) := by
  refine ⟨?_, ?_, ?_, ?_⟩
  · cases segment <;> simp [append_trace_segment]
  · cases segment <;> simp [append_trace_segment]
  · intro t ht
    cases segment <;> simp [append_trace_segment, ht]
  · intro _
    exact ⟨generate_trace_segment_length r, generate_trace_segment_chars r⟩

/-- Witness for C1 at concrete inputs, matching the spec's examples
`appendSegment(None, "BBB22") == "BBB22"` and
`appendSegment("AAA.11", "BBB22") == "AAA.11.BBB22"`. -/
theorem append_trace_segment_spec_witness :
    append_trace_segment (fun _ => 0) none (some "BBB22") = "BBB22"
    ∧ append_trace_segment (fun _ => 0) (some "AAA.11") (some "BBB22")
        = "AAA.11.BBB22" := by
  refine ⟨(append_trace_segment_spec (fun _ => 0) (some "BBB22")).1, ?_⟩
  have h := (append_trace_segment_spec (fun _ => 0) (some "BBB22")).2.2.1
    "AAA.11" (by decide)
  simpa using h

/-! ## Client header builder (http/client.py, `_build_headers`) -/

/-- Embedding of `ServiceClient._build_headers`: content-negotiation
defaults plus, when the context holds a non-empty trace id (Python's
`if trace_id:`), the `X-Trace-ID` propagation header with the stored value
unchanged. The context variable read by `get_trace_id()` is the
`trace_id` argument. -/
def build_headers (trace_id : Option String) : List (String × String) :=
  let headers := [("Content-Type", "application/json"),
                  ("Accept", "application/json")]
  match trace_id with
  | none => headers
  | some t => if t = "" then headers else headers ++ [("X-Trace-ID", t)]

/-- C3: the built headers always carry the JSON content-negotiation
defaults; with an active (non-empty) trace context the `X-Trace-ID`
header equals the stored trace identifier exactly; with no active
context no `X-Trace-ID` header is present. -/
theorem build_headers_spec (trace_id : Option String) :
    (build_headers trace_id).lookup "Content-Type" = some "application/json"
    ∧ (build_headers trace_id).lookup "Accept" = some "application/json"
    ∧ (∀ t : String, trace_id = some t → t ≠ "" →
        (build_headers trace_id).lookup "X-Trace-ID" = some t)
    ∧ (trace_id = none →
        (build_headers trace_id).lookup "X-Trace-ID" = none) := by
  refine ⟨?_, ?_, ?_, ?_⟩
  · cases trace_id with
    | none => decide
    | some t =>
      by_cases ht : t = "" <;> simp [build_headers, ht, List.lookup]
  · cases trace_id with
    | none => decide
    | some t =>
      by_cases ht : t = "" <;> simp [build_headers, ht, List.lookup]
  · intro t hts htne
    subst hts
    simp [build_headers, htne, List.lookup]
  · intro h
    subst h
    decide

/-- Witness for C3 at a concrete trace context. -/
theorem build_headers_spec_witness :
    (build_headers (some "AAA.11")).lookup "X-Trace-ID" = some "AAA.11"
    ∧ (build_headers none).lookup "X-Trace-ID" = none :=
  ⟨(build_headers_spec (some "AAA.11")).2.2.1 "AAA.11" rfl (by decide),
   (build_headers_spec none).2.2.2 rfl⟩

/-! ## Inbound middleware (observability/middleware.py) -/

/-- HTTP response as the middleware observes it: a status code and
mutable headers (modelled as an association list). -/
structure MwResponse where
  status_code : Nat
  headers : List (String × String)
deriving DecidableEq

/-- Inbound request surface the middleware reads. -/
structure MwRequest where
  headers : List (String × String)
  path : String
  method : String
deriving DecidableEq

/-- Structured events the middleware emits, in emission order, with the
fields the source passes to `log_service_request` / `log_service_error` /
`log_service_response`. -/
inductive MwEvent where
  | request (url_name peer_service path method : String)
  | error (url_name peer_service method err err_type : String)
  | response (url_name peer_service method : String)
      (status_code duration_ms : Nat)
deriving DecidableEq

/-- Embedding of `request.url.path.lstrip("/").replace("/", ".")` with
the `"root"` fallback for an empty result. -/
def url_name_of_path (path : String) : String :=
  let stripped := path.toList.dropWhile (fun c => c = '/')
  let dotted := String.mk (stripped.map fun c => if c = '/' then '.' else c)
  if dotted = "" then "root" else dotted

/-- Python `response.headers["X-Trace-ID"] = v`: drop any existing entry
for the key and append the new pair. -/
def set_header (hs : List (String × String)) (k v : String) :
    List (String × String) :=
  hs.filter (fun p => p.1 != k) ++ [(k, v)]

theorem lookup_set_header (hs : List (String × String)) (k v : String) :
    (set_header hs k v).lookup k = some v := by
  induction hs with
  | nil => simp [set_header, List.lookup]
  | cons h t ih =>
    by_cases hk : h.1 = k
    · simpa [set_header, hk] using ih
    · have hb : (k == h.1) = false :=
        beq_eq_false_iff_ne.mpr (fun h' => hk h'.symm)
      simpa [set_header, List.lookup, hk, hb] using ih

/-- Embedding of `ObservabilityMiddleware.dispatch`.  The downstream
handler is an input: either a response or a raised exception (message and
type name).  Elapsed time is the oracle `duration_ms`.  Output: the trace
identifier bound via `set_trace_id`, the events emitted in order, and the
returned response / re-raised exception.  The `finally` block logs the
response event (status 500 when the handler raised, since `status_code`
keeps its default) and mutates the response headers when a response object
exists. -/
def middleware_dispatch (r : Fin 5 → Fin 36) (req : MwRequest)
    (handler : Except (String × String) MwResponse) (duration_ms : Nat) :
    String × List MwEvent × Except (String × String) MwResponse :=
  let incoming_trace_id := req.headers.lookup "X-Trace-ID"
  let trace_id := increment_trace_id r incoming_trace_id none
  let peer_service := (req.headers.lookup "X-Service-Name").getD "unknown"
  let url_name := url_name_of_path req.path
  let reqEv := MwEvent.request url_name peer_service req.path req.method
  match handler with
  | .ok resp =>
    let respEv := MwEvent.response url_name peer_service req.method
      resp.status_code duration_ms
    (trace_id, [reqEv, respEv],
     .ok { resp with headers := set_header resp.headers "X-Trace-ID" trace_id })
  | .error e =>
    let errEv := MwEvent.error url_name peer_service req.method e.1 e.2
    let respEv := MwEvent.response url_name peer_service req.method
      500 duration_ms
    (trace_id, [reqEv, errEv, respEv], .error e)

/-- Test whether an event is a `response` event. -/
def MwEvent.isResponse : MwEvent → Bool
  | .response .. => true
  | _ => false

/-- C2: every dispatch emits exactly one response event; when the handler
raises, an error event precedes that response event, the response event
carries status 500 and the exception is re-raised unchanged; when a
response object exists its `X-Trace-ID` header equals the trace identifier
the middleware bound (the increment of the incoming header). -/
theorem middleware_dispatch_spec (r : Fin 5 → Fin 36) (req : MwRequest)
    (handler : Except (String × String) MwResponse) (duration_ms : Nat) :
    let out := middleware_dispatch r req handler duration_ms
    let url_name := url_name_of_path req.path
    let peer := (req.headers.lookup "X-Service-Name").getD "unknown"
    (out.1 = increment_trace_id r (req.headers.lookup "X-Trace-ID") none)
    ∧ (out.2.1.countP (fun e => MwEvent.isResponse e) = 1)
    ∧ (∀ e, handler = .error e →
        out.2.2 = .error e
        ∧ out.2.1 = [MwEvent.request url_name peer req.path req.method,
                     MwEvent.error url_name peer req.method e.1 e.2,
                     MwEvent.response url_name peer req.method 500 duration_ms])
    ∧ (∀ resp, handler = .ok resp →
        ∃ resp', out.2.2 = .ok resp'
          ∧ resp'.status_code = resp.status_code
          ∧ resp'.headers.lookup "X-Trace-ID" = some out.1) := by
  cases handler with
  | ok resp =>
    refine ⟨rfl, ?_, ?_, ?_⟩
    · simp [middleware_dispatch, MwEvent.isResponse, List.countP, List.countP.go]
    · intro e he; cases he
    · intro resp' h
      cases h
      exact ⟨_, rfl, rfl, lookup_set_header _ _ _⟩
  | error e =>
    refine ⟨rfl, ?_, ?_, ?_⟩
    · simp [middleware_dispatch, MwEvent.isResponse, List.countP, List.countP.go]
    · intro e' he
      cases he
      exact ⟨rfl, rfl⟩
    · intro resp h; cases h

/-- Witness for C2 on a concrete failing handler and a concrete
succeeding handler. -/
theorem middleware_dispatch_spec_witness :
    (middleware_dispatch (fun _ => 0)
        ⟨[("X-Trace-ID", "AAAAA")], "/api/users", "GET"⟩
        (.error ("boom", "ValueError")) 7).2.2 = .error ("boom", "ValueError")
    ∧ ∃ resp', (middleware_dispatch (fun _ => 0)
        ⟨[], "/api/users", "GET"⟩ (.ok ⟨201, []⟩) 7).2.2 = .ok resp'
        ∧ resp'.headers.lookup "X-Trace-ID"
            = some (middleware_dispatch (fun _ => 0)
                ⟨[], "/api/users", "GET"⟩ (.ok ⟨201, []⟩) 7).1 := by
  constructor
  · exact ((middleware_dispatch_spec (fun _ => 0)
      ⟨[("X-Trace-ID", "AAAAA")], "/api/users", "GET"⟩
      (.error ("boom", "ValueError")) 7).2.2.1 ("boom", "ValueError") rfl).1
  · obtain ⟨resp', h1, _, h3⟩ := (middleware_dispatch_spec (fun _ => 0)
      ⟨[], "/api/users", "GET"⟩ (.ok ⟨201, []⟩) 7).2.2.2 ⟨201, []⟩ rfl
    exact ⟨resp', h1, h3⟩

/-! ## URL construction (http/client.py, `_build_url`)

Python `str.replace(old, new)` on the path is modelled character-wise on
`List Char`: scan left to right, replace each non-overlapping occurrence
of the pattern, never re-scanning the replacement text.  -/

/-- Left-to-right replacement of every non-overlapping occurrence of
`pat` (non-empty in every use: the pattern is always a brace-wrapped
placeholder) by `rep`, exactly as Python `str.replace`. -/
def replaceAll (pat rep : List Char) : List Char → List Char
  | [] => []
  | c :: rest =>
    if pat ≠ [] ∧ pat.isPrefixOf (c :: rest) then
      rep ++ replaceAll pat rep (rest.drop (pat.length - 1))
    else
      c :: replaceAll pat rep rest
termination_by s => s.length
decreasing_by
  · simp only [List.length_drop, List.length_cons]
    omega
  · simp

/-- Python's substring test `pat in s` (true for the empty pattern). -/
def containsSub (pat : List Char) : List Char → Bool
  | [] => pat.isEmpty
  | c :: rest => pat.isPrefixOf (c :: rest) || containsSub pat rest

/-- Warnings `_build_url` can log (both at warn level). -/
inductive UrlWarning where
  | paramNotInPath (key : List Char)
  | unreplacedParams
deriving DecidableEq

/-- The parameter-substitution loop of `_build_url`: fold the parameter
map in order, replacing every occurrence of the brace-wrapped key. -/
def substitute_params (path : List Char)
    (params : List (List Char × List Char)) : List Char :=
  params.foldl (fun p kv => replaceAll ('{' :: (kv.1 ++ ['}'])) kv.2 p) path

/-- Embedding of `ServiceClient._build_url`: base URL concatenated with
the substituted path, plus the warn-level observations the source logs
(a parameter whose placeholder is absent from the current path, and
left-over braces after substitution). -/
def build_url (base_url path : List Char)
    (params : List (List Char × List Char)) : List Char × List UrlWarning :=
  let st := params.foldl
    (fun (acc : List Char × List UrlWarning) kv =>
      let placeholder := '{' :: (kv.1 ++ ['}'])
      let warns := if containsSub placeholder acc.1 then acc.2
        else acc.2 ++ [UrlWarning.paramNotInPath kv.1]
      (replaceAll placeholder kv.2 acc.1, warns))
    (path, [])
  let warns := if st.1.contains '{' ∧ st.1.contains '}' then
      st.2 ++ [UrlWarning.unreplacedParams]
    else st.2
  (base_url ++ st.1, warns)

/-- Specification-side view of a path template: alternating literal text
and `\x7bname\x7d` placeholders. -/
inductive PathPiece where
  | lit (s : List Char)
  | hole (key : List Char)
deriving DecidableEq

/-- Render a template back to the concrete path text. -/
def renderPath : List PathPiece → List Char
  | [] => []
  | .lit s :: rest => s ++ renderPath rest
  | .hole k :: rest => '{' :: (k ++ '}' :: renderPath rest)

/-- Text that contains neither brace. -/
def braceFree (s : List Char) : Prop := '{' ∉ s ∧ '}' ∉ s

instance (s : List Char) : Decidable (braceFree s) := by
  unfold braceFree; infer_instance

/-- Well-formed template piece: literals and keys are brace-free. -/
def pieceWF : PathPiece → Prop
  | .lit s => braceFree s
  | .hole k => braceFree k

instance : DecidablePred pieceWF := fun p =>
  match p with
  | .lit s => inferInstanceAs (Decidable (braceFree s))
  | .hole k => inferInstanceAs (Decidable (braceFree k))

/-- Well-formed template. -/
def wfPieces (ps : List PathPiece) : Prop := ∀ p ∈ ps, pieceWF p

instance (ps : List PathPiece) : Decidable (wfPieces ps) :=
  inferInstanceAs (Decidable (∀ p ∈ ps, pieceWF p))

/-- Well-formed parameter map: keys and stringified values brace-free. -/
def wfParams (params : List (List Char × List Char)) : Prop :=
  ∀ kv ∈ params, braceFree kv.1 ∧ braceFree kv.2

instance (params : List (List Char × List Char)) : Decidable (wfParams params) :=
  inferInstanceAs (Decidable (∀ kv ∈ params, braceFree kv.1 ∧ braceFree kv.2))

/-- Specification-side substitution of one key into one piece. -/
def substHole (k v : List Char) : PathPiece → PathPiece
  | .lit s => .lit s
  | .hole k' => if k' = k then .lit v else .hole k'

/-- Specification-side substitution of the whole parameter map, in map
order, mirroring the claim "every placeholder whose key appears in the
map is replaced by the stringified value". -/
def substPiecesAll (params : List (List Char × List Char))
    (ps : List PathPiece) : List PathPiece :=
  params.foldl (fun acc kv => acc.map (substHole kv.1 kv.2)) ps

theorem replaceAll_nil (pat rep : List Char) : replaceAll pat rep [] = [] := by
  simp [replaceAll]

/-- A brace-opening pattern never matches inside brace-free text, so the
text commutes out of the replacement. -/
theorem replaceAll_append_lit (t rep l s : List Char) (hl : '{' ∉ l) :
    replaceAll ('{' :: t) rep (l ++ s) = l ++ replaceAll ('{' :: t) rep s := by
  induction l with
  | nil => simp
  | cons c l' ih =>
    have hc : c ≠ '{' := fun h => hl (h ▸ List.mem_cons_self c l')
    have hc' : ¬ ('{' :: t).isPrefixOf (c :: (l' ++ s)) := by
      rw [List.isPrefixOf_iff_prefix]
      intro h
      exact hc ((List.cons_prefix_cons.mp h).1.symm)
    rw [List.cons_append, replaceAll, if_neg (fun h => hc' h.2)]
    exact congrArg (c :: ·) (ih (fun h => hl (List.mem_cons_of_mem c h)))

/-- Replacing the pattern at an exact occurrence of itself. -/
theorem replaceAll_self_append (k rep rest : List Char) :
    replaceAll ('{' :: (k ++ ['}'])) rep (('{' :: (k ++ ['}'])) ++ rest)
      = rep ++ replaceAll ('{' :: (k ++ ['}'])) rep rest := by
  have hpre : ('{' :: (k ++ ['}'])).isPrefixOf
      ('{' :: ((k ++ ['}']) ++ rest)) := by
    rw [List.isPrefixOf_iff_prefix]
    exact List.cons_prefix_cons.mpr ⟨rfl, List.prefix_append _ _⟩
  rw [List.cons_append, replaceAll, if_pos ⟨by simp, hpre⟩]
  have hdrop : ((k ++ ['}']) ++ rest).drop (('{' :: (k ++ ['}'])).length - 1)
      = rest := by
    have h1 : ('{' :: (k ++ ['}'])).length - 1 = (k ++ ['}']).length := by simp
    rw [h1, List.drop_left]
  rw [hdrop]

/-- Two placeholders over close-brace-free keys can only overlap at a
hole when the keys are equal. -/
theorem prefix_placeholder_inj (k k' rest : List Char)
    (hk : '}' ∉ k) (hk' : '}' ∉ k')
    (h : (k ++ ['}']) <+: (k' ++ ('}' :: rest))) : k = k' := by
  induction k generalizing k' with
  | nil =>
    cases k' with
    | nil => rfl
    | cons c' t' =>
      exfalso
      simp only [List.nil_append, List.cons_append] at h
      exact hk' (((List.cons_prefix_cons.mp h).1) ▸ List.mem_cons_self c' t')
  | cons c t ih =>
    cases k' with
    | nil =>
      exfalso
      simp only [List.cons_append, List.nil_append] at h
      exact hk (((List.cons_prefix_cons.mp h).1).symm ▸ List.mem_cons_self c t)
    | cons c' t' =>
      simp only [List.cons_append] at h
      obtain ⟨hce, hpre⟩ := List.cons_prefix_cons.mp h
      have := ih t' (fun hm => hk (List.mem_cons_of_mem c hm))
        (fun hm => hk' (List.mem_cons_of_mem c' hm)) hpre
      rw [hce, this]

/-- Substituting one parameter into a rendered well-formed template is
exactly the piece-level substitution of that parameter's hole. -/
theorem replaceAll_renderPath (k v : List Char)
    (hkb : braceFree k) (ps : List PathPiece)
    (hwf : wfPieces ps) :
    replaceAll ('{' :: (k ++ ['}'])) v (renderPath ps)
      = renderPath (ps.map (substHole k v)) := by
  induction ps with
  | nil => simp [renderPath, replaceAll_nil]
  | cons p rest ih =>
    have hwf_rest : wfPieces rest := fun q hq => hwf q (List.mem_cons_of_mem p hq)
    have ihr := ih hwf_rest
    cases p with
    | lit s =>
      have hs : braceFree s := hwf (.lit s) (List.mem_cons_self _ _)
      rw [renderPath,
        replaceAll_append_lit (k ++ ['}']) v s (renderPath rest) hs.1, ihr]
      simp [renderPath, substHole]
    | hole k' =>
      have hk'b : braceFree k' := hwf (.hole k') (List.mem_cons_self _ _)
      by_cases hkk : k' = k
      · subst hkk
        have hrp : renderPath (PathPiece.hole k' :: rest)
            = ('{' :: (k' ++ ['}'])) ++ renderPath rest := by
          simp [renderPath]
        rw [hrp, replaceAll_self_append, ihr]
        simp [renderPath, substHole]
      · have hnopre : ¬ ('{' :: (k ++ ['}'])).isPrefixOf
            ('{' :: (k' ++ '}' :: renderPath rest)) := by
          rw [List.isPrefixOf_iff_prefix]
          intro hpre
          have h2 : k ++ ['}'] <+: k' ++ '}' :: renderPath rest :=
            (List.cons_prefix_cons.mp hpre).2
          exact hkk (prefix_placeholder_inj k k' (renderPath rest)
            hkb.2 hk'b.2 h2).symm
        rw [renderPath, replaceAll, if_neg (fun h => hnopre h.2)]
        have hmid : ¬ '{' ∈ (k' ++ ['}']) := by
          intro hm
          rcases List.mem_append.mp hm with h1 | h1
          · exact hk'b.1 h1
          · simp at h1
        have hstep : replaceAll ('{' :: (k ++ ['}'])) v (k' ++ '}' :: renderPath rest)
            = (k' ++ ['}']) ++ replaceAll ('{' :: (k ++ ['}'])) v (renderPath rest) := by
          have harr : k' ++ '}' :: renderPath rest
              = (k' ++ ['}']) ++ renderPath rest := by simp
          rw [harr]
          exact replaceAll_append_lit (k ++ ['}']) v (k' ++ ['}'])
            (renderPath rest) hmid
        rw [hstep, ihr]
        simp [renderPath, substHole, hkk]

/-- Piece-level substitution preserves template well-formedness when the
substituted value is brace-free. -/
theorem wfPieces_map_substHole (k v : List Char) (hvb : braceFree v)
    (ps : List PathPiece) (hwf : wfPieces ps) :
    wfPieces (ps.map (substHole k v)) := by
  intro q hq
  obtain ⟨p, hp, hpq⟩ := List.mem_map.mp hq
  subst hpq
  cases p with
  | lit s => exact hwf (.lit s) hp
  | hole k' =>
    by_cases hkk : k' = k
    · simpa [substHole, hkk] using hvb
    · simpa [substHole, hkk] using hwf (.hole k') hp

/-- The whole substitution loop over a rendered well-formed template is
the piece-level substitution of the whole parameter map. -/
theorem substitute_params_render (params : List (List Char × List Char))
    (ps : List PathPiece) (hwf : wfPieces ps) (hp : wfParams params) :
    substitute_params (renderPath ps) params
      = renderPath (substPiecesAll params ps) := by
  induction params generalizing ps with
  | nil => simp [substitute_params, substPiecesAll]
  | cons kv rest ih =>
    have hkv := hp kv (List.mem_cons_self _ _)
    have hrest : wfParams rest := fun q hq => hp q (List.mem_cons_of_mem kv hq)
    have hstep := replaceAll_renderPath kv.1 kv.2 hkv.1 ps hwf
    have hwf' := wfPieces_map_substHole kv.1 kv.2 hkv.2 ps hwf
    calc substitute_params (renderPath ps) (kv :: rest)
        = substitute_params
            (replaceAll ('{' :: (kv.1 ++ ['}'])) kv.2 (renderPath ps)) rest := by
          simp [substitute_params]
      _ = substitute_params (renderPath (ps.map (substHole kv.1 kv.2))) rest := by
          rw [hstep]
      _ = renderPath (substPiecesAll rest (ps.map (substHole kv.1 kv.2))) :=
          ih _ hwf' hrest
      _ = renderPath (substPiecesAll (kv :: rest) ps) := by
          simp [substPiecesAll]

/-- The URL component of `build_url` is independent of the warning
bookkeeping: it is exactly the base address concatenated with the
substituted path. -/
theorem build_url_fst (base path : List Char)
    (params : List (List Char × List Char)) :
    (build_url base path params).1 = base ++ substitute_params path params := by
  suffices h : ∀ (p0 : List Char) (w0 : List UrlWarning),
      (params.foldl
        (fun (acc : List Char × List UrlWarning) kv =>
          let placeholder := '{' :: (kv.1 ++ ['}'])
          let warns := if containsSub placeholder acc.1 then acc.2
            else acc.2 ++ [UrlWarning.paramNotInPath kv.1]
          (replaceAll placeholder kv.2 acc.1, warns))
        (p0, w0)).1 = substitute_params p0 params by
    exact congrArg (fun x => base ++ x) (h path [])
  intro p0 w0
  induction params generalizing p0 w0 with
  | nil => simp [substitute_params]
  | cons kv rest ih =>
    simp only [List.foldl_cons]
    by_cases hc : containsSub ('{' :: (kv.1 ++ ['}'])) p0 <;>
      simpa [substitute_params, hc] using
        ih (replaceAll ('{' :: (kv.1 ++ ['}'])) kv.2 p0) _

theorem hole_not_mem_map_substHole_self (k v : List Char)
    (ps : List PathPiece) :
    PathPiece.hole k ∉ ps.map (substHole k v) := by
  intro hm
  obtain ⟨p, _, hpq⟩ := List.mem_map.mp hm
  cases p with
  | lit s => simp [substHole] at hpq
  | hole j =>
    by_cases hj : j = k <;> simp [substHole, hj] at hpq

theorem hole_not_mem_map_substHole (k k' v : List Char)
    (ps : List PathPiece) (h : PathPiece.hole k ∉ ps) :
    PathPiece.hole k ∉ ps.map (substHole k' v) := by
  intro hm
  obtain ⟨p, hp, hpq⟩ := List.mem_map.mp hm
  cases p with
  | lit s => simp [substHole] at hpq
  | hole j =>
    by_cases hj : j = k' <;> simp [substHole, hj] at hpq
    exact h (hpq ▸ hp)

theorem hole_not_mem_substPiecesAll (params : List (List Char × List Char))
    (ps : List PathPiece) (k : List Char) (h : PathPiece.hole k ∉ ps) :
    PathPiece.hole k ∉ substPiecesAll params ps := by
  induction params generalizing ps with
  | nil => simpa [substPiecesAll] using h
  | cons kv rest ih =>
    have : substPiecesAll (kv :: rest) ps
        = substPiecesAll rest (ps.map (substHole kv.1 kv.2)) := by
      simp [substPiecesAll]
    rw [this]
    exact ih _ (hole_not_mem_map_substHole k kv.1 kv.2 ps h)

/-- Every key that appears in the parameter map has its placeholder
eliminated from the substituted template. -/
theorem substPiecesAll_no_hole (params : List (List Char × List Char))
    (ps : List PathPiece) (k v : List Char) (hm : (k, v) ∈ params) :
    PathPiece.hole k ∉ substPiecesAll params ps := by
  induction params generalizing ps with
  | nil => cases hm
  | cons kv rest ih =>
    have hshape : substPiecesAll (kv :: rest) ps
        = substPiecesAll rest (ps.map (substHole kv.1 kv.2)) := by
      simp [substPiecesAll]
    rw [hshape]
    rcases List.mem_cons.mp hm with hh | ht
    · have hk : kv.1 = k := by rw [← hh]
      exact hole_not_mem_substPiecesAll rest _ k
        (hk ▸ hole_not_mem_map_substHole_self kv.1 kv.2 ps)
    · exact ih _ ht

/-- C6: for a well-formed path template (alternating brace-free literal
text and placeholders) and a parameter map with brace-free keys and
stringified values, `_build_url` returns exactly the base address
concatenated with the substituted path (no extra separators); every
placeholder whose key appears in the map is replaced by the mapped value
(no such placeholder survives); and the warn-level observations (absent
placeholder, unreplaced placeholder) never abort the call or change the
returned URL, which always equals base ++ the substitution fold. -/
theorem build_url_spec (base : List Char) (ps : List PathPiece)
    (params : List (List Char × List Char))
    (hwf : wfPieces ps) (hp : wfParams params) :
    ((build_url base (renderPath ps) params).1
        = base ++ renderPath (substPiecesAll params ps))
    ∧ (∀ k v, (k, v) ∈ params →
        PathPiece.hole k ∉ substPiecesAll params ps)
    ∧ (∀ path : List Char,
        (build_url base path params).1 = base ++ substitute_params path params) := by
  refine ⟨?_, ?_, ?_⟩
  · rw [build_url_fst, substitute_params_render params ps hwf hp]
  · intro k v hm
    exact substPiecesAll_no_hole params ps k v hm
  · intro path
    exact build_url_fst base path params

/-- Witness for C6: the docstring example
`http://localhost:8001/api/customers/123`. -/
theorem build_url_spec_witness :
    (build_url "http://localhost:8001".toList
      (renderPath [PathPiece.lit "/api/customers/".toList,
                   PathPiece.hole "customer_id".toList])
      [("customer_id".toList, "123".toList)]).1
    = "http://localhost:8001/api/customers/123".toList := by
  have h := (build_url_spec "http://localhost:8001".toList
    [PathPiece.lit "/api/customers/".toList,
     PathPiece.hole "customer_id".toList]
    [("customer_id".toList, "123".toList)] (by decide) (by decide)).1
  rw [h]
  decide

/-! ## Endpoint registry (http/registry.py) -/

/-- Immutable endpoint descriptor (http/models.py, `ServiceEndpoint`),
with the request/response models abstracted to what the client observes:
whether a request model is declared.  The `method` is the string value of
the `HttpMethod` enum member. -/
structure ServiceEndpoint where
  service : String
  path : List Char
  method : String
  hasRequestModel : Bool
  timeout : Option Nat
deriving DecidableEq

/-- The registry's dict, as an insertion-ordered association list. -/
abbrev EndpointReg := List (String × ServiceEndpoint)

/-- Errors the registry raises (`ValueError`/`KeyError` in the source,
carrying the information the messages name). -/
inductive RegError where
  | emptyKey
  | duplicate (key : String)
  | notFound (key : String) (available : List String)
  | bulkConflict (keys : List String)
deriving DecidableEq

/-- Embedding of `EndpointRegistry.register`: empty-key check, duplicate
check, then insert; on error the dict is unchanged. -/
def endpoint_register (reg : EndpointReg) (key : String)
    (endpoint : ServiceEndpoint) : Except RegError Unit × EndpointReg :=
  if key = "" then (.error .emptyKey, reg)
  else if (reg.map Prod.fst).contains key then (.error (.duplicate key), reg)
  else (.ok (), reg ++ [(key, endpoint)])

/-- Embedding of `EndpointRegistry.get`: a miss raises a `KeyError`
naming the currently registered keys (`list_keys`). -/
def endpoint_get (reg : EndpointReg) (key : String) :
    Except RegError ServiceEndpoint :=
  match reg.lookup key with
  | none => .error (.notFound key (reg.map Prod.fst))
  | some ep => .ok ep

/-- Embedding of `EndpointRegistry.bulk_register`: collect every
conflicting key first, raise naming them all with the dict unchanged,
otherwise merge the whole batch. -/
def endpoint_bulk_register (reg : EndpointReg)
    (endpoints : List (String × ServiceEndpoint)) :
    Except RegError Unit × EndpointReg :=
  let conflicts := (endpoints.map Prod.fst).filter
    (fun k => (reg.map Prod.fst).contains k)
  if conflicts ≠ [] then (.error (.bulkConflict conflicts), reg)
  else (.ok (), reg ++ endpoints)

theorem lookup_append_of_lookup_none {α : Type} [BEq α] [LawfulBEq α]
    {β : Type} (l₁ l₂ : List (α × β)) (k : α)
    (h : l₁.lookup k = none) : (l₁ ++ l₂).lookup k = l₂.lookup k := by
  induction l₁ with
  | nil => simp
  | cons p t ih =>
    by_cases hk : k = p.1
    · rw [List.lookup] at h
      simp [hk] at h
    · rw [List.lookup] at h
      have hb : (k == p.1) = false := beq_eq_false_iff_ne.mpr hk
      rw [hb] at h
      simpa [List.lookup, hb] using ih h

theorem mem_keys_of_lookup_eq_some {α : Type} [BEq α] [LawfulBEq α]
    {β : Type} (l : List (α × β)) (k : α) (v : β)
    (h : l.lookup k = some v) : k ∈ l.map Prod.fst := by
  induction l with
  | nil => cases h
  | cons p t ih =>
    rw [List.lookup] at h
    cases hb : (k == p.1) with
    | true =>
      have : k = p.1 := eq_of_beq hb
      simp [this]
    | false =>
      rw [hb] at h
      simpa using Or.inr (by simpa using ih h)

theorem lookup_append_left {α : Type} [BEq α] [LawfulBEq α]
    {β : Type} (l₁ l₂ : List (α × β)) (k : α) (v : β)
    (h : l₁.lookup k = some v) : (l₁ ++ l₂).lookup k = some v := by
  induction l₁ with
  | nil => cases h
  | cons p t ih =>
    rw [List.lookup] at h
    rw [List.cons_append, List.lookup]
    cases hb : (k == p.1) with
    | true => rw [hb] at h; exact h
    | false => rw [hb] at h; exact ih h

theorem lookup_eq_some_of_mem_nodup {α : Type} [BEq α] [LawfulBEq α]
    {β : Type} (l : List (α × β)) (k : α) (v : β)
    (hnd : (l.map Prod.fst).Nodup) (hm : (k, v) ∈ l) :
    l.lookup k = some v := by
  induction l with
  | nil => cases hm
  | cons p t ih =>
    rcases List.mem_cons.mp hm with hh | ht
    · rw [← hh]
      simp [List.lookup]
    · have hk : k ≠ p.1 := by
        intro hkk
        have h1 : p.1 ∈ t.map Prod.fst := hkk ▸ List.mem_map_of_mem Prod.fst ht
        exact (List.nodup_cons.mp (by simpa using hnd)).1 h1
      have hb : (k == p.1) = false := beq_eq_false_iff_ne.mpr hk
      simpa [List.lookup, hb] using
        ih (List.nodup_cons.mp (by simpa using hnd)).2 ht

/-- C8: `bulk_register` is atomic.  If any batch key is already
registered the call fails naming exactly the conflicting keys and the
registry is completely unchanged; otherwise every batch key becomes
registered with its endpoint (the batch's keys are distinct, being the
keys of a Python dict) and existing registrations survive. -/
theorem endpoint_bulk_register_spec (reg : EndpointReg)
    (batch : List (String × ServiceEndpoint))
    (hnd : (batch.map Prod.fst).Nodup) :
    (∀ conflicts,
      conflicts = (batch.map Prod.fst).filter
        (fun k => (reg.map Prod.fst).contains k) →
      conflicts ≠ [] →
        endpoint_bulk_register reg batch = (.error (.bulkConflict conflicts), reg))
    ∧ ((batch.map Prod.fst).filter
          (fun k => (reg.map Prod.fst).contains k) = [] →
        endpoint_bulk_register reg batch = (.ok (), reg ++ batch)
        ∧ (∀ k ep, (k, ep) ∈ batch → (reg ++ batch).lookup k = some ep)
        ∧ (∀ k ep, reg.lookup k = some ep → (reg ++ batch).lookup k = some ep)) := by
  constructor
  · intro conflicts hdef hne
    subst hdef
    simp only [endpoint_bulk_register]
    rw [if_pos hne]
  · intro hempty
    have hok : endpoint_bulk_register reg batch = (.ok (), reg ++ batch) := by
      simp only [endpoint_bulk_register]
      rw [hempty]
      simp
    refine ⟨hok, ?_, ?_⟩
    · intro k ep hm
      have hknotin : reg.lookup k = none := by
        cases hcon : reg.lookup k with
        | none => rfl
        | some v =>
          exfalso
          have hk1 : k ∈ batch.map Prod.fst := List.mem_map_of_mem Prod.fst hm
          have hk2 : (reg.map Prod.fst).contains k := by
            have hmem := mem_keys_of_lookup_eq_some reg k v hcon
            simpa using hmem
          have hfil : k ∈ (batch.map Prod.fst).filter
              (fun k => (reg.map Prod.fst).contains k) :=
            List.mem_filter.mpr ⟨hk1, hk2⟩
          rw [hempty] at hfil
          cases hfil
      rw [lookup_append_of_lookup_none reg batch k hknotin]
      exact lookup_eq_some_of_mem_nodup batch k ep hnd hm
    · intro k ep hm
      exact lookup_append_left reg batch k ep hm

/-! ## Service registry (settings/registry.py) -/

/-- The settings object, reduced to its attribute surface: attribute
name to string value (only `*_base_url` fields matter here). -/
structure SettingsObj where
  fields : List (String × String)
deriving DecidableEq

/-- State of a `ServiceRegistry`: the settings object and the internal
resolved-URL cache. -/
structure ServiceRegistryState where
  settings : SettingsObj
  cache : List (String × String)
deriving DecidableEq

/-- Error raised by `get_base_url` for an unconfigured service. -/
inductive SvcError where
  | notConfigured (service : String) (available : List String)
deriving DecidableEq

/-- Python `str.lower`, character-wise (the service names at stake are
ASCII). -/
def pyLower (s : String) : String := String.mk (s.toList.map Char.toLower)

/-- Embedding of `ServiceRegistry.list_services`: settings fields ending
in `_base_url` and not starting with an underscore, suffix stripped
(the `endswith`/`startswith`/`replace` calls are modelled character-wise
on the field name). -/
def list_services (s : SettingsObj) : List String :=
  ((s.fields.map Prod.fst).filter
      (fun f => "_base_url".toList.isSuffixOf f.toList
        && !("_".toList.isPrefixOf f.toList))).map
    (fun f => String.mk (replaceAll "_base_url".toList [] f.toList))

/-- Embedding of `ServiceRegistry.get_base_url`: cache hit wins;
otherwise resolve `{name.lower()}_base_url` from the settings object,
caching the result; an absent field raises `ValueError`. -/
def get_base_url (st : ServiceRegistryState) (service_name : String) :
    Except SvcError String × ServiceRegistryState :=
  match st.cache.lookup service_name with
  | some v => (.ok v, st)
  | none =>
    let field_name := pyLower service_name ++ "_base_url"
    match st.settings.fields.lookup field_name with
    | none =>
      (.error (.notConfigured service_name (list_services st.settings)), st)
    | some url =>
      (.ok url, { st with cache := st.cache ++ [(service_name, url)] })

/-- Embedding of `ServiceRegistry.clear_cache`. -/
def clear_cache (st : ServiceRegistryState) : ServiceRegistryState :=
  { st with cache := [] }

theorem lookup_append_singleton_of_none {α : Type} [BEq α] [LawfulBEq α]
    {β : Type} (l : List (α × β)) (k : α) (v : β)
    (h : l.lookup k = none) : (l ++ [(k, v)]).lookup k = some v := by
  rw [lookup_append_of_lookup_none l [(k, v)] k h]
  simp [List.lookup]

/-- After a successful resolution the cache holds the returned value. -/
theorem get_base_url_caches (st : ServiceRegistryState) (name v : String)
    (st' : ServiceRegistryState)
    (h : get_base_url st name = (.ok v, st')) :
    st'.cache.lookup name = some v := by
  unfold get_base_url at h
  cases hc : st.cache.lookup name with
  | some w =>
    rw [hc] at h
    cases h
    simpa using hc
  | none =>
    rw [hc] at h
    simp only [] at h
    cases hf : st.settings.fields.lookup (pyLower name ++ "_base_url") with
    | none => rw [hf] at h; cases h
    | some url =>
      rw [hf] at h
      rw [Prod.mk.injEq] at h
      obtain ⟨h1, h2⟩ := h
      have hv : url = v := by injection h1
      subst hv
      rw [← h2]
      exact lookup_append_singleton_of_none st.cache name url hc

/-- C9: once `get_base_url(name)` has succeeded with value `v`, every
later call returns `v` from the cache and leaves the state unchanged,
even if the settings object is replaced in between; after `clear_cache`
the next call re-resolves from the (possibly new) settings object. -/
theorem service_registry_cache_stability (st : ServiceRegistryState)
    (name v : String) (st' : ServiceRegistryState)
    (h : get_base_url st name = (.ok v, st')) :
    (∀ s2 : SettingsObj,
      get_base_url { st' with settings := s2 } name
        = (.ok v, { st' with settings := s2 }))
    ∧ (∀ (s2 : SettingsObj) (u : String),
        s2.fields.lookup (pyLower name ++ "_base_url") = some u →
        get_base_url { clear_cache st' with settings := s2 } name
          = (.ok u, { settings := s2, cache := [(name, u)] })) := by
  have hcache := get_base_url_caches st name v st' h
  constructor
  · intro s2
    unfold get_base_url
    simp [hcache]
  · intro s2 u hu
    unfold get_base_url
    simp [clear_cache, List.lookup, hu]

/-- Witness for C9: resolve once, mutate the settings, observe the cached
value; clear, observe the new value. -/
theorem service_registry_cache_stability_witness :
    (get_base_url
        { settings := ⟨[("census_base_url", "http://old")]⟩,
          cache := [("census", "http://old")] } "census"
      = (.ok "http://old",
         { settings := ⟨[("census_base_url", "http://old")]⟩,
           cache := [("census", "http://old")] }))
    ∧ (get_base_url
        { settings := ⟨[("census_base_url", "http://new")]⟩,
          cache := [("census", "http://old")] } "census"
      = (.ok "http://old",
         { settings := ⟨[("census_base_url", "http://new")]⟩,
           cache := [("census", "http://old")] }))
    ∧ (get_base_url
        { settings := ⟨[("census_base_url", "http://new")]⟩, cache := [] }
          "census"
      = (.ok "http://new",
         { settings := ⟨[("census_base_url", "http://new")]⟩,
           cache := [("census", "http://new")] })) := by
  have hfirst : get_base_url
      { settings := ⟨[("census_base_url", "http://old")]⟩, cache := [] }
        "census"
      = (.ok "http://old",
         { settings := ⟨[("census_base_url", "http://old")]⟩,
           cache := [("census", "http://old")] }) := rfl
  have h := service_registry_cache_stability _ "census" "http://old" _ hfirst
  refine ⟨?_, ?_, ?_⟩
  · exact h.1 ⟨[("census_base_url", "http://old")]⟩
  · exact h.1 ⟨[("census_base_url", "http://new")]⟩
  · exact h.2 ⟨[("census_base_url", "http://new")]⟩ "http://new" (by decide)

/-- Sample endpoints for concrete witnesses. -/
def epA : ServiceEndpoint := ⟨"census", "/api/a".toList, "GET", false, none⟩

def epB : ServiceEndpoint := ⟨"census", "/api/b".toList, "GET", false, none⟩

/-- Witness for C8: a conflicting batch is rejected naming the clash and
leaving the registry unchanged; a clean batch registers every key. -/
theorem endpoint_bulk_register_spec_witness :
    endpoint_bulk_register [("a", epA)] [("a", epA), ("b", epB)]
      = (.error (.bulkConflict ["a"]), [("a", epA)])
    ∧ endpoint_bulk_register [("a", epA)] [("b", epB)]
      = (.ok (), [("a", epA), ("b", epB)])
    ∧ ([("a", epA)] ++ [("b", epB)] : EndpointReg).lookup "b" = some epB := by
  refine ⟨?_, ?_, ?_⟩
  · exact (endpoint_bulk_register_spec [("a", epA)] [("a", epA), ("b", epB)]
      (by decide)).1 ["a"] (by decide) (by decide)
  · exact ((endpoint_bulk_register_spec [("a", epA)] [("b", epB)]
      (by decide)).2 (by decide)).1
  · exact ((endpoint_bulk_register_spec [("a", epA)] [("b", epB)]
      (by decide)).2 (by decide)).2.1 "b" epB (by decide)

/-! ## Service client request lifecycle (http/client.py, `request`) -/

/-- Observable actions of one `ServiceClient.request` call, in program
order: the warn-level logs and result of `_build_url`, the pre-dispatch
`log_http_request` event, the transport dispatch itself (with the headers
sent), error logs, and the `log_http_response` event. -/
inductive ClientAction where
  | builtUrl (url : List Char)
  | warnLog (name : String)
  | requestEvent (key : String) (url : List Char) (method : String)
  | dispatched (headers : List (String × String))
  | errorLog (name : String)
  | responseEvent (key : String) (url : List Char) (status : Nat)
      (method : String) (duration_ms : Nat)
deriving DecidableEq

/-- What the transport (`httpx.AsyncClient`) does for this call: a
response (status, raw body, and whether the body validates against the
endpoint's response model), a timeout exception, or another
transport-level exception. -/
inductive TransportOutcome where
  | resp (status : Nat) (body : List Char) (bodyValid : Bool)
  | timeout
  | transportError (msg : String)
deriving DecidableEq

/-- Exceptions that are raised inside the `try` block and then caught by
the trailing `except Exception` handler, which wraps them in a generic
`ServiceError`. -/
inductive PyExn where
  | notFoundExn (url : List Char)
  | unavailableExn (status : Nat)
  | validationExn
  | otherExn (msg : String)
deriving DecidableEq

/-- The error that finally propagates out of `request`. -/
inductive ClientFailure where
  | endpointNotFound (key : String) (available : List String)
  | serviceNotConfigured (service : String)
  | bodyTypeMismatch (key : String)
  | serviceTimeout (key : String)
  | serviceErrorStatus (key : String) (status : Nat) (bodyPrefix : List Char)
  | serviceErrorWrapped (key : String) (cause : PyExn)
deriving DecidableEq

/-- Successful results of `request`. -/
inductive ClientSuccess where
  | validated
  | noContent
deriving DecidableEq

/-- Names for the warn logs of `_build_url`. -/
def warnName : UrlWarning → String
  | .paramNotInPath _ => "path_param_not_found"
  | .unreplacedParams => "unreplaced_params"

/-- The methods `request` knows how to dispatch; anything else raises
`ValueError` inside the `try` block. -/
def allowedMethods : List String := ["GET", "POST", "PUT", "DELETE", "PATCH"]

/-- The part of `request` from `log_http_request` onward (source lines
186-331): emit the request event, dispatch, then classify.  Status
handling follows the source: 404 and >=500 raise typed errors inside the
`try` which the trailing `except Exception` catches and wraps into a
generic `ServiceError`; `raise_for_status` turns any other non-2xx into
an `httpx.HTTPStatusError` handled by its own clause; the success
response event precedes body parsing/validation, and a response-model
`ValidationError` is re-raised, then also caught and wrapped by the
trailing handler. -/
def dispatchPhase (key : String) (url : List Char) (method : String)
    (headers : List (String × String)) (outcome : TransportOutcome)
    (dur : Nat) : List ClientAction × Except ClientFailure ClientSuccess :=
  let reqEv := ClientAction.requestEvent key url method
  if method ∈ allowedMethods then
    match outcome with
    | .timeout =>
      ([reqEv, .dispatched headers, .errorLog "request_timeout"],
       .error (.serviceTimeout key))
    | .transportError m =>
      ([reqEv, .dispatched headers, .errorLog "request_error"],
       .error (.serviceErrorWrapped key (.otherExn m)))
    | .resp status body bodyValid =>
      if status = 404 then
        ([reqEv, .dispatched headers, .warnLog "resource_not_found",
          .errorLog "request_error"],
         .error (.serviceErrorWrapped key (.notFoundExn url)))
      else if 500 ≤ status then
        ([reqEv, .dispatched headers, .errorLog "service_unavailable",
          .errorLog "request_error"],
         .error (.serviceErrorWrapped key (.unavailableExn status)))
      else if ¬ (200 ≤ status ∧ status < 300) then
        ([reqEv, .dispatched headers, .errorLog "http_error"],
         .error (.serviceErrorStatus key status (body.take 200)))
      else if body = [] then
        ([reqEv, .dispatched headers,
          .responseEvent key url status method dur],
         .ok .noContent)
      else if bodyValid then
        ([reqEv, .dispatched headers,
          .responseEvent key url status method dur],
         .ok .validated)
      else
        ([reqEv, .dispatched headers,
          .responseEvent key url status method dur,
          .errorLog "response_validation_error", .errorLog "request_error"],
         .error (.serviceErrorWrapped key .validationExn))
  else
    ([reqEv, .errorLog "request_error"],
     .error (.serviceErrorWrapped key (.otherExn "Unsupported HTTP method")))

/-- Embedding of `ServiceClient.request`: endpoint lookup, URL and header
construction, request-body type validation, then the dispatch phase.
Inputs that the source receives through its environment are explicit:
the endpoint registry, the service registry state, the bound trace
context, whether a body was supplied and whether its type matches the
endpoint's request model, the transport outcome, and the elapsed time.
Output: the actions in program order, the result, and the (possibly
cache-updated) service registry state. -/
def clientRequest (ereg : EndpointReg) (sreg : ServiceRegistryState)
    (trace : Option String) (key : String)
    (path_params : List (List Char × List Char))
    (bodyProvided bodyMatchesModel : Bool)
    (outcome : TransportOutcome) (dur : Nat) :
    List ClientAction × Except ClientFailure ClientSuccess
      × ServiceRegistryState :=
  match endpoint_get ereg key with
  | .error _ => ([], .error (.endpointNotFound key (ereg.map Prod.fst)), sreg)
  | .ok endpoint =>
    match get_base_url sreg endpoint.service with
    | (.error _, sreg') =>
      ([], .error (.serviceNotConfigured endpoint.service), sreg')
    | (.ok base, sreg') =>
      let built := build_url base.toList endpoint.path path_params
      let urlActions := (built.2.map fun w => ClientAction.warnLog (warnName w))
        ++ [ClientAction.builtUrl built.1]
      let headers := build_headers trace
      if bodyProvided && endpoint.hasRequestModel && !bodyMatchesModel then
        (urlActions, .error (.bodyTypeMismatch key), sreg')
      else
        let phase := dispatchPhase key built.1 endpoint.method headers
          outcome dur
        (urlActions ++ phase.1, phase.2, sreg')

/-- Test for the pre-dispatch `request` event. -/
def ClientAction.isRequestEvent : ClientAction → Bool
  | .requestEvent .. => true
  | _ => false

/-- Test for the `response` event. -/
def ClientAction.isResponseEvent : ClientAction → Bool
  | .responseEvent .. => true
  | _ => false

/-- Whether a `request` event was emitted. -/
def hasReqEv (l : List ClientAction) : Bool :=
  l.any ClientAction.isRequestEvent

/-- Whether a `response` event was emitted. -/
def hasRespEv (l : List ClientAction) : Bool :=
  l.any ClientAction.isResponseEvent

/-- Scan: no `response` event may occur before a `request` event. -/
def reqBeforeResp : List ClientAction → Bool
  | [] => true
  | ClientAction.responseEvent .. :: _ => false
  | ClientAction.requestEvent .. :: _ => true
  | _ :: rest => reqBeforeResp rest

/-- Scan: the `response` event must occur before the
`response_validation_error` log. -/
def respBeforeValLog : List ClientAction → Bool
  | [] => true
  | ClientAction.responseEvent .. :: _ => true
  | ClientAction.errorLog n :: rest =>
    if n = "response_validation_error" then false else respBeforeValLog rest
  | _ :: rest => respBeforeValLog rest

/-- Failures raised before the `log_http_request` event. -/
def ClientFailure.isPreDispatch : ClientFailure → Bool
  | .endpointNotFound .. => true
  | .serviceNotConfigured .. => true
  | .bodyTypeMismatch .. => true
  | _ => false

theorem reqBeforeResp_urlActions (ws : List UrlWarning) (url : List Char)
    (l : List ClientAction) :
    reqBeforeResp ((ws.map fun w => ClientAction.warnLog (warnName w))
      ++ ClientAction.builtUrl url :: l) = reqBeforeResp l := by
  induction ws with
  | nil => simp [reqBeforeResp]
  | cons w t ih => simpa [reqBeforeResp] using ih

theorem hasReqEv_urlActions (ws : List UrlWarning) (url : List Char) :
    hasReqEv ((ws.map fun w => ClientAction.warnLog (warnName w))
      ++ [ClientAction.builtUrl url]) = false := by
  induction ws with
  | nil => rfl
  | cons w t ih =>
    simp only [List.map_cons, List.cons_append]
    simp [hasReqEv, ClientAction.isRequestEvent] at ih ⊢

theorem respBeforeValLog_urlActions (ws : List UrlWarning) (url : List Char)
    (l : List ClientAction) :
    respBeforeValLog ((ws.map fun w => ClientAction.warnLog (warnName w))
      ++ ClientAction.builtUrl url :: l) = respBeforeValLog l := by
  induction ws with
  | nil => simp [respBeforeValLog]
  | cons w t ih => simpa [respBeforeValLog] using ih

/-- Every dispatch-phase action list starts with the `request` event. -/
theorem dispatchPhase_shape (key : String) (url : List Char)
    (method : String) (headers : List (String × String))
    (outcome : TransportOutcome) (dur : Nat) :
    ∃ rest, (dispatchPhase key url method headers outcome dur).1
      = ClientAction.requestEvent key url method :: rest := by
  cases outcome <;> simp only [dispatchPhase] <;> split_ifs <;>
    exact ⟨_, rfl⟩

/-- Dispatch-phase failures are never the pre-dispatch kinds. -/
theorem dispatchPhase_error_not_preDispatch (key : String) (url : List Char)
    (method : String) (headers : List (String × String))
    (outcome : TransportOutcome) (dur : Nat) (f : ClientFailure)
    (hf : (dispatchPhase key url method headers outcome dur).2 = .error f) :
    f.isPreDispatch = false := by
  cases outcome <;> simp only [dispatchPhase] at hf <;> split_ifs at hf <;>
    (cases hf; rfl)

/-- C5 (amended): no call ever emits a `response` event without a prior
`request` event; every failure arising at or after dispatch (timeout,
HTTP status error, wrapped in-flight exception) has the `request` event
already emitted; but the pre-dispatch failures (unknown endpoint key,
unresolvable service, request-body type mismatch) propagate before the
`request` event is emitted. -/
theorem client_request_event_discipline (ereg : EndpointReg)
    (sreg : ServiceRegistryState) (trace : Option String) (key : String)
    (pp : List (List Char × List Char)) (bP bM : Bool)
    (outcome : TransportOutcome) (dur : Nat) :
    (reqBeforeResp
        (clientRequest ereg sreg trace key pp bP bM outcome dur).1 = true)
    ∧ (∀ f, (clientRequest ereg sreg trace key pp bP bM outcome dur).2.1
          = .error f → f.isPreDispatch = false →
        hasReqEv (clientRequest ereg sreg trace key pp bP bM outcome dur).1
          = true)
    ∧ (∀ f, (clientRequest ereg sreg trace key pp bP bM outcome dur).2.1
          = .error f → f.isPreDispatch = true →
        hasReqEv (clientRequest ereg sreg trace key pp bP bM outcome dur).1
          = false) := by
  rcases hc : endpoint_get ereg key with e | endpoint
  · refine ⟨?_, ?_, ?_⟩ <;> simp only [clientRequest, hc]
    · rfl
    · intro f hf hpre
      cases hf
      simp [ClientFailure.isPreDispatch] at hpre
    · intro f hf hpre
      rfl
  · rcases hb : get_base_url sreg endpoint.service with ⟨bres, sreg'⟩
    cases bres with
    | error e =>
      refine ⟨?_, ?_, ?_⟩ <;> simp only [clientRequest, hc, hb]
      · rfl
      · intro f hf hpre
        cases hf
        simp [ClientFailure.isPreDispatch] at hpre
      · intro f hf hpre
        rfl
    | ok base =>
      by_cases hbody : (bP && endpoint.hasRequestModel && !bM) = true
      · have hout : clientRequest ereg sreg trace key pp bP bM outcome dur
            = (((build_url base.toList endpoint.path pp).2.map
                  fun w => ClientAction.warnLog (warnName w))
                ++ [ClientAction.builtUrl
                    (build_url base.toList endpoint.path pp).1],
               .error (.bodyTypeMismatch key), sreg') := by
          simp only [clientRequest, hc, hb]
          rw [if_pos hbody]
        refine ⟨?_, ?_, ?_⟩ <;> rw [hout]
        · rw [← List.singleton_append, List.singleton_append,
            reqBeforeResp_urlActions _ _ ([] : List ClientAction)]
          · rfl
        · intro f hf hpre
          cases hf
          simp [ClientFailure.isPreDispatch] at hpre
        · intro f hf hpre
          exact hasReqEv_urlActions _ _
      · obtain ⟨rest, hsh⟩ :=
          dispatchPhase_shape key
            (build_url base.toList endpoint.path pp).1 endpoint.method
            (build_headers trace) outcome dur
        have hout : clientRequest ereg sreg trace key pp bP bM outcome dur
            = ((((build_url base.toList endpoint.path pp).2.map
                  fun w => ClientAction.warnLog (warnName w))
                ++ [ClientAction.builtUrl
                    (build_url base.toList endpoint.path pp).1])
                ++ (dispatchPhase key
                    (build_url base.toList endpoint.path pp).1
                    endpoint.method (build_headers trace) outcome dur).1,
               (dispatchPhase key
                  (build_url base.toList endpoint.path pp).1
                  endpoint.method (build_headers trace) outcome dur).2,
               sreg') := by
          simp only [clientRequest, hc, hb]
          rw [if_neg hbody]
        refine ⟨?_, ?_, ?_⟩ <;> rw [hout]
        · rw [hsh]
          simp only [List.append_assoc, List.singleton_append]
          rw [reqBeforeResp_urlActions]
          rfl
        · intro f hf hpre
          rw [hsh]
          simp [hasReqEv, List.any_append, ClientAction.isRequestEvent]
        · intro f hf hpre
          have hnot := dispatchPhase_error_not_preDispatch key
            (build_url base.toList endpoint.path pp).1 endpoint.method
            (build_headers trace) outcome dur f hf
          rw [hnot] at hpre
          exact Bool.noConfusion hpre

/-- Concrete fixture: a registered GET endpoint on service `census`. -/
def epX : ServiceEndpoint := ⟨"census", "/api/x".toList, "GET", false, none⟩

/-- Concrete fixture: endpoint registry holding `epX`. -/
def eregX : EndpointReg := [("census.x", epX)]

/-- Concrete fixture: service registry resolving `census`. -/
def sregX : ServiceRegistryState :=
  ⟨⟨[("census_base_url", "http://c")]⟩, []⟩

/-- C4 (evaluation at the failing inputs): the code classifies a 404 and
a 503 as a generic wrapped `ServiceError` (status_code `None`, the typed
`ServiceNotFoundError`/`ServiceUnavailableError` surviving only as the
`__cause__` swallowed by the trailing `except Exception`), while a
timeout yields the typed timeout error, a 422 yields the generic error
carrying status and truncated body, and another transport failure yields
the generic wrapped error — so the typed 404/5xx errors of the claim
never reach the caller. -/
theorem client_request_error_classification :
    ((clientRequest eregX sregX none "census.x" [] false true
        (.resp 404 [] true) 5).2.1
      = .error (.serviceErrorWrapped "census.x"
          (.notFoundExn "http://c/api/x".toList)))
    ∧ ((clientRequest eregX sregX none "census.x" [] false true
        (.resp 503 [] true) 5).2.1
      = .error (.serviceErrorWrapped "census.x" (.unavailableExn 503)))
    ∧ ((clientRequest eregX sregX none "census.x" [] false true
        .timeout 5).2.1
      = .error (.serviceTimeout "census.x"))
    ∧ ((clientRequest eregX sregX none "census.x" [] false true
        (.resp 422 "bad".toList true) 5).2.1
      = .error (.serviceErrorStatus "census.x" 422 "bad".toList))
    ∧ ((clientRequest eregX sregX none "census.x" [] false true
        (.transportError "connection refused") 5).2.1
      = .error (.serviceErrorWrapped "census.x"
          (.otherExn "connection refused"))) :=
  ⟨rfl, rfl, rfl, rfl, rfl⟩

/-- C5 (counterexample): a call with an unknown endpoint key terminates
in an error with no `request` event emitted at all, refuting the claim
that every error-terminating invocation has already emitted it. -/
theorem client_request_event_counterexample :
    ((clientRequest eregX sregX none "missing" [] false true
        .timeout 5).2.1
      = .error (.endpointNotFound "missing" ["census.x"]))
    ∧ hasReqEv (clientRequest eregX sregX none "missing" [] false true
        .timeout 5).1 = false :=
  ⟨rfl, rfl⟩

/-- Witness for the amended C5 at concrete inputs: a timeout failure has
the request event emitted. -/
theorem client_request_event_discipline_witness :
    hasReqEv (clientRequest eregX sregX none "census.x" [] false true
      .timeout 5).1 = true :=
  (client_request_event_discipline eregX sregX none "census.x" [] false
    true .timeout 5).2.1 (.serviceTimeout "census.x") rfl rfl

/-- C10: on a 2xx response whose non-empty body fails response-model
validation, the call fails (with the validation error wrapped by the
trailing handler) but the success `response` event was already emitted
before the validation-error log. -/
theorem client_response_event_before_validation_error (ereg : EndpointReg)
    (sreg : ServiceRegistryState) (trace : Option String) (key : String)
    (pp : List (List Char × List Char)) (bP bM : Bool) (dur status : Nat)
    (body : List Char) (endpoint : ServiceEndpoint) (base : String)
    (sreg' : ServiceRegistryState)
    (hep : endpoint_get ereg key = .ok endpoint)
    (hbase : get_base_url sreg endpoint.service = (.ok base, sreg'))
    (hmethod : endpoint.method ∈ allowedMethods)
    (hbody : (bP && endpoint.hasRequestModel && !bM) = false)
    (hst : 200 ≤ status ∧ status < 300)
    (hne : body ≠ []) :
    ((clientRequest ereg sreg trace key pp bP bM
        (.resp status body false) dur).2.1
      = .error (.serviceErrorWrapped key .validationExn))
    ∧ hasRespEv (clientRequest ereg sreg trace key pp bP bM
        (.resp status body false) dur).1 = true
    ∧ respBeforeValLog (clientRequest ereg sreg trace key pp bP bM
        (.resp status body false) dur).1 = true := by
  have h404 : ¬ (status = 404) := by omega
  have h5xx : ¬ (500 ≤ status) := by omega
  have hphase : dispatchPhase key (build_url base.toList endpoint.path pp).1
      endpoint.method (build_headers trace) (.resp status body false) dur
      = ([ClientAction.requestEvent key
            (build_url base.toList endpoint.path pp).1 endpoint.method,
          ClientAction.dispatched (build_headers trace),
          ClientAction.responseEvent key
            (build_url base.toList endpoint.path pp).1 status
            endpoint.method dur,
          ClientAction.errorLog "response_validation_error",
          ClientAction.errorLog "request_error"],
         .error (.serviceErrorWrapped key .validationExn)) := by
    simp only [dispatchPhase]
    rw [if_pos hmethod, if_neg h404, if_neg h5xx,
      if_neg (not_not_intro hst), if_neg hne, if_neg (by simp)]
  have hout : clientRequest ereg sreg trace key pp bP bM
      (.resp status body false) dur
      = ((((build_url base.toList endpoint.path pp).2.map
            fun w => ClientAction.warnLog (warnName w))
          ++ [ClientAction.builtUrl
              (build_url base.toList endpoint.path pp).1])
          ++ (dispatchPhase key (build_url base.toList endpoint.path pp).1
              endpoint.method (build_headers trace)
              (.resp status body false) dur).1,
         (dispatchPhase key (build_url base.toList endpoint.path pp).1
            endpoint.method (build_headers trace)
            (.resp status body false) dur).2,
         sreg') := by
    simp only [clientRequest, hep, hbase]
    rw [if_neg (by simp [hbody])]
  refine ⟨?_, ?_, ?_⟩ <;> rw [hout, hphase]
  · simp [hasRespEv, List.any_append, ClientAction.isResponseEvent]
  · simp only [List.append_assoc, List.singleton_append]
    rw [respBeforeValLog_urlActions]
    rfl

/-- Witness for C10 at concrete inputs. -/
theorem client_response_event_before_validation_error_witness :
    ((clientRequest eregX sregX none "census.x" [] false true
        (.resp 200 "x".toList false) 5).2.1
      = .error (.serviceErrorWrapped "census.x" .validationExn))
    ∧ hasRespEv (clientRequest eregX sregX none "census.x" [] false true
        (.resp 200 "x".toList false) 5).1 = true :=
  have h := client_response_event_before_validation_error eregX sregX none
    "census.x" [] false true 5 200 "x".toList epX "http://c"
    ⟨⟨[("census_base_url", "http://c")]⟩, [("census", "http://c")]⟩
    rfl rfl (by decide) rfl (by omega) (by decide)
  ⟨h.1, h.2.1⟩

/-- C7 (counterexample): an empty key can enter the registry through
`bulk_register` (which never checks emptiness), and `register` on that
already-present key then raises the empty-key error, not the
duplicate-key error. -/
theorem endpoint_register_counterexample :
    ((endpoint_bulk_register [] [("", epA)]).2 = [("", epA)])
    ∧ (endpoint_register [("", epA)] "" epB
        = (.error .emptyKey, [("", epA)]))
    ∧ ((.error .emptyKey : Except RegError Unit)
        ≠ .error (.duplicate "")) := by
  refine ⟨rfl, rfl, ?_⟩
  intro h
  injection h with h2
  exact RegError.noConfusion h2

/-- C7 (amended): a `get` on an unregistered key errors naming exactly
the currently registered keys; `request` on such a key fails with that
configuration error before building any URL or dispatching (no actions
at all, service-registry state untouched); and `register` on an already
registered non-empty key raises the duplicate-key error with the
registry unchanged (an empty already-present key, reachable only through
`bulk_register`, is instead rejected by the empty-key check). -/
theorem endpoint_registry_access_spec :
    (∀ (reg : EndpointReg) (key : String), reg.lookup key = none →
        endpoint_get reg key = .error (.notFound key (reg.map Prod.fst)))
    ∧ (∀ (ereg : EndpointReg) (sreg : ServiceRegistryState)
        (trace : Option String) (key : String)
        (pp : List (List Char × List Char)) (bP bM : Bool)
        (outcome : TransportOutcome) (dur : Nat),
        ereg.lookup key = none →
        clientRequest ereg sreg trace key pp bP bM outcome dur
          = ([], .error (.endpointNotFound key (ereg.map Prod.fst)), sreg))
    ∧ (∀ (reg : EndpointReg) (key : String) (ep ep' : ServiceEndpoint),
        key ≠ "" → reg.lookup key = some ep →
        endpoint_register reg key ep' = (.error (.duplicate key), reg)) := by
  refine ⟨?_, ?_, ?_⟩
  · intro reg key h
    simp only [endpoint_get, h]
  · intro ereg sreg trace key pp bP bM outcome dur h
    have hget : endpoint_get ereg key
        = .error (.notFound key (ereg.map Prod.fst)) := by
      simp only [endpoint_get, h]
    simp only [clientRequest, hget]
  · intro reg key ep ep' hk h
    have hcont : (reg.map Prod.fst).contains key = true := by
      simpa using mem_keys_of_lookup_eq_some reg key ep h
    simp only [endpoint_register]
    rw [if_neg hk, if_pos hcont]

/-- Witness for the amended C7 at concrete inputs. -/
theorem endpoint_registry_access_spec_witness :
    (endpoint_get [("a", epA)] "b" = .error (.notFound "b" ["a"]))
    ∧ (clientRequest [("a", epA)] sregX none "b" [] false true .timeout 5
        = ([], .error (.endpointNotFound "b" ["a"]), sregX))
    ∧ (endpoint_register [("a", epA)] "a" epB
        = (.error (.duplicate "a"), [("a", epA)])) :=
  ⟨endpoint_registry_access_spec.1 [("a", epA)] "b" rfl,
   endpoint_registry_access_spec.2.1 [("a", epA)] sregX none "b" [] false
     true .timeout 5 rfl,
   endpoint_registry_access_spec.2.2 [("a", epA)] "a" epA epB
     (by decide) rfl⟩

end Fundamentum
